import Mathlib

/-!
Shallow embedding of the ArXiv digest pipeline
(`streamlit_arxiv_digest.py`, `daily_digest.py`).

Modelling conventions:
* Python `datetime` instants are modelled as `Int` seconds; `timedelta.days`
  (floor of the day difference) becomes `Int.fdiv` by 86400.
* Python `float` scores are modelled as exact rationals `ℚ`; every arithmetic
  operation used by the scoring function (`+`, `/`, `max`, `min`) is exact.
* Python strings are Lean `String`s; the string helpers below (`strLower`,
  `strTrim`, `strContains`, `splitOnChar`, `joinSep`) are structural-recursion
  models of `str.lower`, `str.strip`, the `in` substring test, `str.split` and
  `str.join`, written over `List Char` so that concrete instances can be
  evaluated by the kernel.
* The upstream arXiv search is a black box: its result sequence is passed to
  `fetch_papers` as an explicit list, exactly the sequence `search.results()`
  would yield.
-/

/-- One upstream search result (`arxiv.Result`), restricted to the fields the
program reads: title, abstract (`summary`), author names, publication instant
(seconds), PDF link and canonical record link. -/
structure Paper where
  title : String
  summary : String
  authors : List String
  published : Int
  pdf_url : String
  entry_id : String
deriving DecidableEq

/-- Does the pattern list occur at the head of the character list?
(Model of Python `str.startswith` at the character level.) -/
def startsWithChars : List Char → List Char → Bool
  | [], _ => true
  | _ :: _, [] => false
  | p :: ps, c :: cs => p == c && startsWithChars ps cs

/-- Does the pattern occur as a contiguous sublist? (Model of Python `in`.) -/
def containsChars (pat : List Char) : List Char → Bool
  | [] => pat.isEmpty
  | c :: cs => startsWithChars pat (c :: cs) || containsChars pat cs

/-- Model of Python `needle in haystack` on strings. -/
def strContains (haystack needle : String) : Bool :=
  containsChars needle.data haystack.data

/-- Model of Python `str.startswith` on strings. -/
def strStarts (s pre : String) : Bool :=
  startsWithChars pre.data s.data

/-- Model of Python `str.lower` (ASCII case folding, which covers every string
the program lowers). -/
def strLower (s : String) : String :=
  ⟨s.data.map Char.toLower⟩

/-- Model of Python `str.strip`: whitespace removed from both ends. -/
def strTrim (s : String) : String :=
  ⟨((s.data.dropWhile Char.isWhitespace).reverse.dropWhile Char.isWhitespace).reverse⟩

/-- Split a character list at every occurrence of `sep`
(model of Python `str.split(sep)` for a one-character separator). -/
def splitOnChar (sep : Char) : List Char → List (List Char)
  | [] => [[]]
  | c :: rest =>
    if c = sep then [] :: splitOnChar sep rest
    else
      match splitOnChar sep rest with
      | [] => [[c]]
      | l :: ls => (c :: l) :: ls

/-- Model of Python `sep.join(strings)`. -/
def joinSep (sep : String) : List String → String
  | [] => ""
  | [x] => x
  | x :: y :: rest => x ++ sep ++ joinSep sep (y :: rest)

/-- Model of the comprehension
`[x.strip() for x in s.split(',') if x.strip()]`. -/
def parse_csv (s : String) : List String :=
  ((splitOnChar ',' s.data).map (fun cs => strTrim ⟨cs⟩)).filter (fun t => t ≠ "")

/-- Python truthiness of an optional environment string (`os.getenv` result):
`None` and the empty string are falsy. -/
def truthy : Option String → Bool
  | none => false
  | some s => s ≠ ""

/-! ### Score model (`calculate_paper_score`, lines 122-161) -/

/-- Model of `(datetime.now() - paper.published).days`:
floor of the difference in days. -/
def days_old (now published : Int) : Int :=
  (now - published).fdiv 86400

/-- The recency factor `max(0, 7 - days_old) / 7` (line 129). -/
def recency_score (now : Int) (p : Paper) : ℚ :=
  ((max 0 (7 - days_old now p.published) : ℤ) : ℚ) / 7

/-- Title keyword term: `+3` for each keyword whose lowercase form occurs in
the lowercased title (lines 133-136). -/
def title_term (p : Paper) (priority_keywords : List String) : ℚ :=
  3 * (priority_keywords.countP
    (fun kw => strContains (strLower p.title) (strLower kw)) : ℕ)

/-- Abstract keyword term: `+1` per matching keyword (lines 139-142). -/
def abstract_term (p : Paper) (priority_keywords : List String) : ℚ :=
  (priority_keywords.countP
    (fun kw => strContains (strLower p.summary) (strLower kw)) : ℕ)

/-- Author-count proxy `min(len(paper.authors) / 10, 1.0)` (line 145). -/
def author_score (p : Paper) : ℚ :=
  min ((p.authors.length : ℚ) / 10) 1

/-- The built-in default priority-source list (lines 152-153). -/
def default_sources : List String :=
  ["google", "openai", "microsoft", "meta", "deepmind", "anthropic",
   "stanford", "mit", "berkeley", "cmu", "oxford", "cambridge"]

/-- Python `if priority_sources: sources = priority_sources else: sources = [...]`
(lines 149-153): `None` and the empty list both select the default list. -/
def resolve_sources : Option (List String) → List String
  | some (s :: rest) => s :: rest
  | _ => default_sources

/-- The blob `' '.join(author.name.lower() for author in paper.authors)`
(line 155). -/
def author_text (p : Paper) : String :=
  joinSep " " (p.authors.map strLower)

/-- Priority-source bonus (lines 148-159): `+2` if any source pattern
(lowercased, stripped) occurs in the author blob; the Python loop breaks at
the first match, which is exactly an existential test. -/
def source_bonus (p : Paper) (priority_sources : Option (List String)) : ℚ :=
  if (resolve_sources priority_sources).any
      (fun src => strContains (author_text p) (strTrim (strLower src)))
  then 2 else 0

/-- Model of `calculate_paper_score` (lines 122-161): the running `score` accumulates
the five additive terms, so it equals their sum. -/
def calculate_paper_score (now : Int) (p : Paper)
    (priority_keywords : List String)
    (priority_sources : Option (List String)) : ℚ :=
  recency_score now p * 2 + title_term p priority_keywords
    + abstract_term p priority_keywords + author_score p
    + source_bonus p priority_sources

/-! ### Candidate fetcher (`fetch_papers`, lines 164-233) -/

/-- Line 214: `priority_keywords = [...] if keywords.strip() else []`. -/
def priority_keywords_of (keywords : String) : List String :=
  if strTrim keywords ≠ "" then parse_csv keywords else []

/-- Line 215: `priority_source_list = [...] if priority_sources else None`. -/
def priority_source_list_of (priority_sources : String) : Option (List String) :=
  if priority_sources ≠ "" then some (parse_csv priority_sources) else none

/-- The score attached to each collected pair: the relevance score when
sorting is enabled, the literal `0` otherwise (lines 219-223). -/
def score_of (now : Int) (sort_by_relevance : Bool) (kws : List String)
    (srcs : Option (List String)) (p : Paper) : ℚ :=
  if sort_by_relevance then calculate_paper_score now p kws srcs else 0

/-- The collection loop over `search.results()` (lines 217-226): keep a paper
when its publication instant passes the cutoff test, and break as soon as the
accumulated list reaches `search_limit` entries. -/
def collect_loop (search_limit : Nat) (keep : Paper → Bool) (sc : Paper → ℚ) :
    List Paper → List (Paper × ℚ) → List (Paper × ℚ)
  | [], acc => acc
  | p :: rest, acc =>
    let acc' := if keep p then acc ++ [(p, sc p)] else acc
    if search_limit ≤ acc'.length then acc'
    else collect_loop search_limit keep sc rest acc'

/-- Model of `papers_with_scores.sort(key=lambda x: x[1], reverse=True)` (line 230):
a stable descending sort on the score component.  Python's sort is stable and
any two stable sorts for the same total preorder agree, so the stable
`List.insertionSort` with relation `b.2 ≤ a.2` computes the same list. -/
def sort_desc (l : List (Paper × ℚ)) : List (Paper × ℚ) :=
  List.insertionSort (fun a b => b.2 ≤ a.2) l

/-- The scored pipeline of `fetch_papers` (lines 164-233) up to the final
projection: cutoff filter, score, optional stable sort, truncation.
`upstream` is the sequence the arXiv client yields. -/
def fetch_scored (now : Int) (upstream : List Paper) (keywords : String)
    (max_papers : Nat) (days_back : Int) (sort_by_relevance : Bool)
    (priority_sources : String) : List (Paper × ℚ) :=
  let cutoff : Int := now - days_back * 86400
  let kws := priority_keywords_of keywords
  let srcs := priority_source_list_of priority_sources
  let search_limit := max_papers * 3
  let collected := collect_loop search_limit
    (fun p => decide (cutoff ≤ p.published))
    (score_of now sort_by_relevance kws srcs) upstream []
  let sorted := if sort_by_relevance then sort_desc collected else collected
  sorted.take max_papers

/-- Model of `fetch_papers` (line 233): `[paper for paper, score in papers_with_scores[:max_papers]]`. -/
def fetch_papers (now : Int) (upstream : List Paper) (keywords : String)
    (max_papers : Nat) (days_back : Int) (sort_by_relevance : Bool)
    (priority_sources : String) : List Paper :=
  (fetch_scored now upstream keywords max_papers days_back
    sort_by_relevance priority_sources).map Prod.fst

/-! ### Summary client (`summarise_abstract`, lines 55-119)

The network call is modelled by an explicit environment outcome.  The Lean
function is total, which models the Python contract that every branch of
`summarise_abstract` returns a string instead of raising: every exception the
body can raise is caught by the `except` clauses (lines 114-119). -/

/-- Decoded JSON body of a 200 response, restricted to the keys read:
the optional `error` object (with its optional `message`) and the list of
`choices` message contents. -/
structure RespBody where
  err : Option (Option String)
  choices : List String

/-- Outcome of the `requests.post` call: a timeout, a request exception, any
other raised exception (message as seen by `str(e)`), or an HTTP response
with status, raw text, and either a decoded JSON body or the message of the
exception `response.json()` raised. -/
inductive NetResult where
  | timeout : NetResult
  | requestExc : String → NetResult
  | otherExc : String → NetResult
  | httpResponse : Nat → String → Except String RespBody → NetResult

/-- Model of `summarise_abstract` (lines 55-119).  The abstract only feeds the prompt,
never the result, but is kept for signature fidelity. -/
def summarise_abstract (apiKey : Option String) (abstract : String)
    (net : NetResult) : String :=
  if ¬ truthy apiKey then
    "⚠️ OpenRouter API key not configured. Please set OPENROUTER_API_KEY in your environment."
  else
    match net with
    | NetResult.timeout => "❌ Request timeout - try again later"
    | NetResult.requestExc m => "❌ Network error: " ++ m
    | NetResult.otherExc m => "❌ Error generating summary: " ++ m
    | NetResult.httpResponse status text body =>
      if status ≠ 200 then
        "❌ API Error " ++ toString status ++ ": " ++ text
      else
        match body with
        | Except.error m => "❌ Error generating summary: " ++ m
        | Except.ok b =>
          match b.err with
          | some msg =>
            "❌ OpenRouter Error: " ++ msg.getD "Unknown error"
          | none =>
            match b.choices with
            | c :: _ => strTrim c
            | [] => "❌ No response content received from OpenRouter API"

/-- The success path of `summarise_abstract`: key present, HTTP 200, body
decodes, no `error` key, non-empty `choices`. -/
def summarySuccess (apiKey : Option String) (net : NetResult) : Prop :=
  truthy apiKey = true ∧
  match net with
  | NetResult.httpResponse status _ (Except.ok b) =>
    status = 200 ∧ b.err = none ∧ b.choices ≠ []
  | _ => False

/-! ### Orchestrator normalization (`generate_daily_digest`, lines 75-81) -/

/-- The fallback string of `daily_digest.py` line 79 (hyphen-minus, as in the
source). -/
def fallback_summary : String :=
  "Summary generation failed - see original abstract"

/-- Lines 77-79 of `daily_digest.py`: replace a summary that starts with the
error marker by the fixed fallback string. -/
def normalize_summary (s : String) : String :=
  if strStarts s "❌" then fallback_summary else s

/-! ### Delivery router (`send_email`, lines 236-326) -/

/-- The email-credential environment read at module load (lines 49-51). -/
structure EmailEnv where
  gmail_user : Option String
  gmail_app_password : Option String
  sendgrid_api_key : Option String

/-- The two delivery transports. -/
inductive Transport where
  | gmail : Transport
  | sendgrid : Transport
deriving DecidableEq

/-- Model of `send_email_gmail` (lines 236-301), abstracted over the SMTP outcome
`gmailOk`: the list records which transports performed network I/O. -/
def send_email_gmail (env : EmailEnv) (gmailOk : Bool) :
    List Transport × Bool :=
  if truthy env.gmail_user && truthy env.gmail_app_password then
    ([Transport.gmail], gmailOk)
  else ([], false)

/-- Model of `send_email_sendgrid` (lines 329-408), abstracted over the API outcome. -/
def send_email_sendgrid (env : EmailEnv) (sendgridOk : Bool) :
    List Transport × Bool :=
  if truthy env.sendgrid_api_key then ([Transport.sendgrid], sendgridOk)
  else ([], false)

/-- Model of `send_email` (lines 304-326): Gmail when both Gmail credentials are
truthy, otherwise SendGrid when its key is truthy, otherwise no attempt and
`False`. -/
def send_email (env : EmailEnv) (gmailOk sendgridOk : Bool) :
    List Transport × Bool :=
  if truthy env.gmail_user && truthy env.gmail_app_password then
    send_email_gmail env gmailOk
  else if truthy env.sendgrid_api_key then
    send_email_sendgrid env sendgridOk
  else ([], false)

/-! ### Plaintext digest renderer (`text_content`, lines 751-762) -/

/-- One decimal digit character. -/
def digitChar (n : Nat) : Char :=
  match n % 10 with
  | 0 => '0' | 1 => '1' | 2 => '2' | 3 => '3' | 4 => '4'
  | 5 => '5' | 6 => '6' | 7 => '7' | 8 => '8' | _ => '9'

/-- Two-digit zero-padded decimal (for `%m` and `%d`). -/
def pad2 (n : Nat) : List Char :=
  [digitChar (n / 10), digitChar n]

/-- Four-digit zero-padded decimal (for `%Y` in the Gregorian range the
program can encounter). -/
def pad4 (n : Nat) : List Char :=
  [digitChar (n / 1000), digitChar (n / 100), digitChar (n / 10), digitChar n]

/-- Proleptic-Gregorian civil date from days since the Unix epoch
(the date computation behind `datetime`): year, month, day. -/
def civil_from_days (z0 : Int) : Int × Nat × Nat :=
  let z : Int := z0 + 719468
  let era : Int := z.fdiv 146097
  let doe : Nat := (z - era * 146097).toNat
  let yoe : Nat := (doe - doe / 1460 + doe / 36524 - doe / 146096) / 365
  let doy : Nat := doe - (365 * yoe + yoe / 4 - yoe / 100)
  let mp : Nat := (5 * doy + 2) / 153
  let d : Nat := doy - (153 * mp + 2) / 5 + 1
  let m : Nat := if mp < 10 then mp + 3 else mp - 9
  (if m ≤ 2 then (yoe : Int) + era * 400 + 1 else (yoe : Int) + era * 400, m, d)

/-- Model of `paper.published.strftime('%Y-%m-%d')` (line 758): the civil date of the
publication instant, rendered as zero-padded `Y-m-d`. -/
def formatDate (published : Int) : String :=
  let c := civil_from_days (published.fdiv 86400)
  ⟨pad4 c.1.toNat ++ '-' :: (pad2 c.2.1 ++ '-' :: pad2 c.2.2)⟩

/-- The `"-" * 60` and `"=" * 60` separator rules (lines 753, 762). -/
def sepRule (c : Char) : String :=
  ⟨List.replicate 60 c⟩

/-- The per-entry block appended to `text_content` (lines 755-762). -/
def entryText (e : Paper × String) : String :=
  "Title: " ++ e.1.title ++ "\n" ++
  "Authors: " ++ joinSep ", " ((e.1.authors.take 3)) ++ "\n" ++
  "Published: " ++ formatDate e.1.published ++ "\n" ++
  "PDF: " ++ e.1.pdf_url ++ "\n" ++
  "arXiv: " ++ e.1.entry_id ++ "\n\n" ++
  "Summary:\n" ++ e.2 ++ "\n\n" ++
  sepRule '-' ++ "\n\n"

/-- The loop `for paper, summary in digests: text_content += ...` as a fold of
string appends. -/
def entriesText : List (Paper × String) → String
  | [] => ""
  | e :: rest => entryText e ++ entriesText rest

/-- Model of `text_content` (lines 751-762): header (current date string, keyword
string, a rule of 60 equals signs) followed by the entry blocks.  `today`
stands for `date.today().strftime('%B %d, %Y')`. -/
def text_content (today keywords : String)
    (digests : List (Paper × String)) : String :=
  "ArXiv Digest - " ++ today ++ "\n" ++
  "Keywords: " ++ keywords ++ "\n" ++
  sepRule '=' ++ "\n\n" ++
  entriesText digests

/-! ### Plaintext digest re-parser

Modelled from the spec: the repository ships no re-parser; section 8 of the
specification states the round-trip property "rendering then re-parsing the
plaintext digest recovers title, authors, publication date, and document link
for every entry", so the parser below reads those four fields back from the
rendered plaintext: every line starting with the `Title: ` tag opens an
entry whose next three lines carry the authors, the publication date and the
PDF link. -/

/-- The four fields the spec's round-trip property recovers per entry. -/
structure ParsedEntry where
  title : String
  authors : List String
  published : String
  pdf : String
deriving DecidableEq

/-- Split an author line at every `", "` separator (inverse of the `', '.join`
of line 757). -/
def splitCommaSp : List Char → List (List Char)
  | [] => [[]]
  | [c] => [[c]]
  | c1 :: c2 :: rest =>
    if c1 = ',' ∧ c2 = ' ' then [] :: splitCommaSp rest
    else
      match splitCommaSp (c2 :: rest) with
      | [] => [[c1]]
      | l :: ls => (c1 :: l) :: ls

/-- Field extraction from the four lines of one rendered entry. -/
def parsedOfLines (t a d u : List Char) : ParsedEntry :=
  { title := ⟨t.drop 7⟩
    authors := (splitCommaSp (a.drop 9)).map (fun cs => (⟨cs⟩ : String))
    published := ⟨d.drop 11⟩
    pdf := ⟨u.drop 5⟩ }

/-- Scan the rendered lines: each line starting with `Title: ` opens an entry
read from it and the following three lines. -/
def parseLines : List (List Char) → List ParsedEntry
  | [] => []
  | l :: rest =>
    if startsWithChars "Title: ".data l then
      match rest with
      | a :: d :: u :: rest2 => parsedOfLines l a d u :: parseLines rest2
      | _ => []
    else parseLines rest

/-- Re-parse a rendered plaintext digest. -/
def parseDigest (s : String) : List ParsedEntry :=
  parseLines (splitOnChar '\n' s.data)

/-- The fields of a digest entry that the renderer actually emits: title, the
first three author names, the formatted date, the PDF link. -/
def renderedFields (e : Paper × String) : ParsedEntry :=
  { title := e.1.title
    authors := e.1.authors.take 3
    published := formatDate e.1.published
    pdf := e.1.pdf_url }

instance : IsTotal (Paper × ℚ) (fun a b => b.2 ≤ a.2) :=
  ⟨fun a b => le_total b.2 a.2⟩

instance : IsTrans (Paper × ℚ) (fun a b => b.2 ≤ a.2) :=
  ⟨fun _ _ _ h1 h2 => le_trans h2 h1⟩

/-- The candidates of one fetch that pass the client-side cutoff re-filter
(the records accepted by line 218 when no scan cap intervenes). -/
def survivors (now days_back : Int) (upstream : List Paper) : List Paper :=
  upstream.filter (fun p => decide (now - days_back * 86400 ≤ p.published))

/-- The list built by the collection loop of one fetch invocation. -/
def collected_of (now : Int) (upstream : List Paper) (keywords : String)
    (max_papers : Nat) (days_back : Int) (sort_by_relevance : Bool)
    (priority_sources : String) : List (Paper × ℚ) :=
  collect_loop (max_papers * 3)
    (fun p => decide (now - days_back * 86400 ≤ p.published))
    (score_of now sort_by_relevance (priority_keywords_of keywords)
      (priority_source_list_of priority_sources)) upstream []

/-- Join line fragments with the separator, in front of a tail. -/
def linesJoin (sep : Char) : List (List Char) → List Char → List Char
  | [], tail => tail
  | l :: ls, tail => l ++ sep :: linesJoin sep ls tail

/-- Well-formedness of one digest entry for the plaintext round trip: the
rendered single-line fields contain no newline, the paper has at least one
author, the first three author names are free of the `", "` join separator,
and no summary line mimics the `Title: ` field tag. -/
def goodEntry (e : Paper × String) : Prop :=
  '\n' ∉ e.1.title.data ∧
  '\n' ∉ e.1.pdf_url.data ∧
  '\n' ∉ e.1.entry_id.data ∧
  e.1.authors ≠ [] ∧
  (∀ n ∈ e.1.authors.take 3,
    '\n' ∉ n.data ∧ containsChars [',', ' '] n.data = false) ∧
  (∀ l ∈ splitOnChar '\n' e.2.data,
    startsWithChars "Title: ".data l = false)

instance goodEntry_decidable (e : Paper × String) : Decidable (goodEntry e) := by
  unfold goodEntry
  infer_instance

/-! ### Helper lemmas: collection loop -/

theorem collect_loop_cons (lim : Nat) (keep : Paper → Bool) (sc : Paper → ℚ)
    (p : Paper) (rest : List Paper) (acc : List (Paper × ℚ)) :
    collect_loop lim keep sc (p :: rest) acc =
      (fun acc' => if lim ≤ acc'.length then acc'
        else collect_loop lim keep sc rest acc')
      (if keep p then acc ++ [(p, sc p)] else acc) := rfl

theorem collect_loop_keep (lim : Nat) (keep : Paper → Bool) (sc : Paper → ℚ) :
    ∀ (l : List Paper) (acc : List (Paper × ℚ)),
      (∀ y ∈ acc, keep y.1 = true) →
      ∀ x ∈ collect_loop lim keep sc l acc, keep x.1 = true := by
  intro l
  induction l with
  | nil =>
    intro acc hacc x hx
    exact hacc x hx
  | cons p rest ih =>
    intro acc hacc x hx
    rw [collect_loop_cons] at hx
    set acc' := if keep p then acc ++ [(p, sc p)] else acc with hdef
    have hacc' : ∀ y ∈ acc', keep y.1 = true := by
      intro y hy
      rw [hdef] at hy
      by_cases hk : keep p = true
      · rw [if_pos hk] at hy
        rcases List.mem_append.1 hy with h | h
        · exact hacc y h
        · simp only [List.mem_singleton] at h
          subst h
          exact hk
      · rw [if_neg hk] at hy
        exact hacc y hy
    simp only at hx
    by_cases hb : lim ≤ acc'.length
    · rw [if_pos hb] at hx
      exact hacc' x hx
    · rw [if_neg hb] at hx
      exact ih acc' hacc' x hx

theorem collect_loop_sublist (lim : Nat) (keep : Paper → Bool) (sc : Paper → ℚ) :
    ∀ (l : List Paper) (acc : List (Paper × ℚ)),
      ((collect_loop lim keep sc l acc).map Prod.fst).Sublist
        (acc.map Prod.fst ++ l) := by
  intro l
  induction l with
  | nil =>
    intro acc
    simp only [collect_loop, List.append_nil]
    exact List.Sublist.refl _
  | cons p rest ih =>
    intro acc
    rw [collect_loop_cons]
    set acc' := if keep p then acc ++ [(p, sc p)] else acc with hdef
    have hsub : (acc'.map Prod.fst).Sublist (acc.map Prod.fst ++ [p]) := by
      rw [hdef]
      by_cases hk : keep p = true
      · rw [if_pos hk]
        simp only [List.map_append, List.map_cons, List.map_nil]
        exact List.Sublist.refl _
      · rw [if_neg hk]
        exact (List.sublist_append_left _ _)
    have hgoal : (acc.map Prod.fst ++ [p] ++ rest).Sublist
        (acc.map Prod.fst ++ p :: rest) := by
      rw [List.append_assoc, List.singleton_append]
    simp only
    by_cases hb : lim ≤ acc'.length
    · rw [if_pos hb]
      exact (hsub.trans (List.sublist_append_left _ rest)).trans hgoal
    · rw [if_neg hb]
      refine (ih acc').trans ?_
      exact (List.Sublist.append_right hsub rest).trans hgoal

theorem collect_loop_no_break (lim : Nat) (keep : Paper → Bool) (sc : Paper → ℚ) :
    ∀ (l : List Paper) (acc : List (Paper × ℚ)),
      acc.length + (l.filter keep).length < lim →
      collect_loop lim keep sc l acc =
        acc ++ (l.filter keep).map (fun p => (p, sc p)) := by
  intro l
  induction l with
  | nil =>
    intro acc h
    simp [collect_loop]
  | cons p rest ih =>
    intro acc h
    rw [collect_loop_cons]
    simp only
    by_cases hk : keep p = true
    · rw [if_pos hk]
      rw [List.filter_cons_of_pos hk] at h ⊢
      simp only [List.length_cons] at h
      have hb : ¬ lim ≤ (acc ++ [(p, sc p)]).length := by
        simp only [List.length_append, List.length_singleton]
        omega
      rw [if_neg hb, ih]
      · simp
      · simp only [List.length_append, List.length_singleton]
        omega
    · rw [if_neg hk]
      rw [List.filter_cons_of_neg hk] at h ⊢
      have hb : ¬ lim ≤ acc.length := by omega
      rw [if_neg hb, ih]
      exact h

/-! ### Helper lemmas: stable sort -/

theorem filter_orderedInsert {α : Type} (r : α → α → Prop) [DecidableRel r]
    (p : α → Bool) (x : α) (hcompat : ∀ a b, p a = true → p b = true → r a b) :
    ∀ l : List α, (List.orderedInsert r x l).filter p =
      if p x then x :: l.filter p else l.filter p := by
  intro l
  induction l with
  | nil =>
    simp only [List.orderedInsert, List.filter_cons, List.filter_nil]
  | cons y l ih =>
    simp only [List.orderedInsert]
    by_cases hr : r x y
    · rw [if_pos hr, List.filter_cons, List.filter_cons]
    · rw [if_neg hr, List.filter_cons]
      by_cases hy : p y = true
      · have hx : ¬ p x = true := fun hx => hr (hcompat x y hx hy)
        rw [if_pos hy, ih, if_neg hx, List.filter_cons, if_pos hy, if_neg hx]
      · rw [if_neg hy, ih, List.filter_cons, if_neg hy]

theorem filter_insertionSort {α : Type} (r : α → α → Prop) [DecidableRel r]
    (p : α → Bool) (hcompat : ∀ a b, p a = true → p b = true → r a b) :
    ∀ l : List α, (List.insertionSort r l).filter p = l.filter p := by
  intro l
  induction l with
  | nil => rfl
  | cons y l ih =>
    simp only [List.insertionSort]
    rw [filter_orderedInsert r p y hcompat, List.filter_cons]
    by_cases hy : p y = true
    · rw [if_pos hy, if_pos hy, ih]
    · rw [if_neg hy, if_neg hy, ih]



theorem fetch_scored_eq (now : Int) (upstream : List Paper) (keywords : String)
    (max_papers : Nat) (days_back : Int) (sort_by_relevance : Bool)
    (priority_sources : String) :
    fetch_scored now upstream keywords max_papers days_back sort_by_relevance
        priority_sources =
      (if sort_by_relevance then
        sort_desc (collected_of now upstream keywords max_papers days_back
          sort_by_relevance priority_sources)
      else collected_of now upstream keywords max_papers days_back
        sort_by_relevance priority_sources).take max_papers := rfl

theorem mem_collected_cutoff {now : Int} {upstream : List Paper}
    {keywords : String} {max_papers : Nat} {days_back : Int}
    {sort_by_relevance : Bool} {priority_sources : String} {x : Paper × ℚ}
    (hx : x ∈ collected_of now upstream keywords max_papers days_back
      sort_by_relevance priority_sources) :
    now - days_back * 86400 ≤ x.1.published := by
  have h := collect_loop_keep (max_papers * 3)
    (fun p => decide (now - days_back * 86400 ≤ p.published))
    (score_of now sort_by_relevance (priority_keywords_of keywords)
      (priority_source_list_of priority_sources)) upstream []
    (by intro y hy; cases hy) x hx
  exact of_decide_eq_true h

/-- C1: every record returned by `fetch_papers` has a publication instant no
earlier than `now - days_back` days, whatever the upstream provider returned:
the loop of lines 217-226 re-checks each record against the locally computed
cutoff and drops any record published earlier. -/
theorem fetch_papers_respects_cutoff (now : Int) (upstream : List Paper)
    (keywords : String) (max_papers : Nat) (days_back : Int)
    (sort_by_relevance : Bool) (priority_sources : String) :
    ∀ p ∈ fetch_papers now upstream keywords max_papers days_back
        sort_by_relevance priority_sources,
      now - days_back * 86400 ≤ p.published := by
  intro p hp
  unfold fetch_papers at hp
  rw [fetch_scored_eq] at hp
  rcases List.mem_map.1 hp with ⟨x, hx, rfl⟩
  have hx2 := List.mem_of_mem_take hx
  have hx3 : x ∈ collected_of now upstream keywords max_papers days_back
      sort_by_relevance priority_sources := by
    by_cases hs : sort_by_relevance
    · rw [if_pos hs] at hx2
      exact (List.mem_insertionSort _).1 hx2
    · rw [if_neg hs] at hx2
      exact hx2
  exact mem_collected_cutoff hx3

/-- Closed witness for `fetch_papers_respects_cutoff` at a concrete input. -/
theorem fetch_papers_respects_cutoff_witness :
    (⟨"T1", "A1", ["a"], 864000, "u1", "e1"⟩ : Paper) ∈
      fetch_papers 864000 [⟨"T1", "A1", ["a"], 864000, "u1", "e1"⟩,
        ⟨"T2", "A2", ["b"], 0, "u2", "e2"⟩] "" 1 1 false "" ∧
    (864000 : Int) - 1 * 86400 ≤
      (⟨"T1", "A1", ["a"], 864000, "u1", "e1"⟩ : Paper).published :=
  ⟨by decide,
   fetch_papers_respects_cutoff 864000
     [⟨"T1", "A1", ["a"], 864000, "u1", "e1"⟩, ⟨"T2", "A2", ["b"], 0, "u2", "e2"⟩]
     "" 1 1 false "" ⟨"T1", "A1", ["a"], 864000, "u1", "e1"⟩ (by decide)⟩

/-- C2: `fetch_papers` returns at most `max_papers` records, and when fewer
records survive the cutoff filter than `max_papers`, it returns exactly the
survivors (as a permutation: sorting may reorder them) — never padding. -/
theorem fetch_papers_bounded_never_pads (now : Int) (upstream : List Paper)
    (keywords : String) (max_papers : Nat) (days_back : Int)
    (sort_by_relevance : Bool) (priority_sources : String) :
    (fetch_papers now upstream keywords max_papers days_back sort_by_relevance
        priority_sources).length ≤ max_papers ∧
    ((survivors now days_back upstream).length < max_papers →
      (fetch_papers now upstream keywords max_papers days_back
          sort_by_relevance priority_sources).Perm
        (survivors now days_back upstream)) := by
  constructor
  · unfold fetch_papers
    rw [fetch_scored_eq, List.length_map, List.length_take]
    exact min_le_left _ _
  · intro hlt
    have hcoll : collected_of now upstream keywords max_papers days_back
        sort_by_relevance priority_sources =
        (survivors now days_back upstream).map
          (fun p => (p, score_of now sort_by_relevance
            (priority_keywords_of keywords)
            (priority_source_list_of priority_sources) p)) := by
      unfold collected_of
      rw [collect_loop_no_break]
      · rfl
      · simp only [List.length_nil, Nat.zero_add]
        calc (upstream.filter
            (fun p => decide (now - days_back * 86400 ≤ p.published))).length
            < max_papers := hlt
          _ ≤ max_papers * 3 := by omega
    unfold fetch_papers
    rw [fetch_scored_eq]
    have hlen : (if sort_by_relevance then
        sort_desc (collected_of now upstream keywords max_papers days_back
          sort_by_relevance priority_sources)
      else collected_of now upstream keywords max_papers days_back
        sort_by_relevance priority_sources).length ≤ max_papers := by
      by_cases hs : sort_by_relevance
      · rw [if_pos hs]
        unfold sort_desc
        rw [List.length_insertionSort, hcoll, List.length_map]
        omega
      · rw [if_neg hs, hcoll, List.length_map]
        omega
    rw [List.take_of_length_le hlen]
    have hperm : (if sort_by_relevance then
        sort_desc (collected_of now upstream keywords max_papers days_back
          sort_by_relevance priority_sources)
      else collected_of now upstream keywords max_papers days_back
        sort_by_relevance priority_sources).Perm
        (collected_of now upstream keywords max_papers days_back
          sort_by_relevance priority_sources) := by
      by_cases hs : sort_by_relevance
      · rw [if_pos hs]
        exact List.perm_insertionSort _ _
      · rw [if_neg hs]
    have h2 : (collected_of now upstream keywords max_papers days_back
        sort_by_relevance priority_sources).map Prod.fst =
        survivors now days_back upstream := by
      rw [hcoll, List.map_map]
      exact List.map_id' _
    exact h2 ▸ (hperm.map Prod.fst)

/-- Closed witness for `fetch_papers_bounded_never_pads`. -/
theorem fetch_papers_bounded_never_pads_witness :
    (survivors 864000 1 [⟨"T1", "A1", ["a"], 864000, "u1", "e1"⟩,
        ⟨"T2", "A2", ["b"], 0, "u2", "e2"⟩]).length < 2 ∧
    (fetch_papers 864000 [⟨"T1", "A1", ["a"], 864000, "u1", "e1"⟩,
        ⟨"T2", "A2", ["b"], 0, "u2", "e2"⟩] "" 2 1 false "").Perm
      (survivors 864000 1 [⟨"T1", "A1", ["a"], 864000, "u1", "e1"⟩,
        ⟨"T2", "A2", ["b"], 0, "u2", "e2"⟩]) :=
  ⟨by decide,
   (fetch_papers_bounded_never_pads 864000
     [⟨"T1", "A1", ["a"], 864000, "u1", "e1"⟩, ⟨"T2", "A2", ["b"], 0, "u2", "e2"⟩]
     "" 2 1 false "").2 (by decide)⟩

theorem collected_map_fst_sublist (now : Int) (upstream : List Paper)
    (keywords : String) (max_papers : Nat) (days_back : Int)
    (sort_by_relevance : Bool) (priority_sources : String) :
    ((collected_of now upstream keywords max_papers days_back
        sort_by_relevance priority_sources).map Prod.fst).Sublist upstream := by
  have h := collect_loop_sublist (max_papers * 3)
    (fun p => decide (now - days_back * 86400 ≤ p.published))
    (score_of now sort_by_relevance (priority_keywords_of keywords)
      (priority_source_list_of priority_sources)) upstream []
  exact h

/-- C5: with relevance sorting enabled the fetched pairs are pairwise in
descending score order, and the equal-score pairs appear in their upstream
relative order (the sort of line 230 is stable); with sorting disabled the
returned papers are a subsequence of the upstream sequence, i.e. exactly in
the order received. -/
theorem fetch_papers_order (now : Int) (upstream : List Paper)
    (keywords : String) (max_papers : Nat) (days_back : Int)
    (priority_sources : String) :
    ((fetch_scored now upstream keywords max_papers days_back true
        priority_sources).Pairwise (fun a b => b.2 ≤ a.2)) ∧
    (∀ s : ℚ,
      (((fetch_scored now upstream keywords max_papers days_back true
          priority_sources).filter (fun x => decide (x.2 = s))).map
        Prod.fst).Sublist upstream) ∧
    (fetch_papers now upstream keywords max_papers days_back false
        priority_sources).Sublist upstream := by
  refine ⟨?_, ?_, ?_⟩
  · rw [fetch_scored_eq, if_pos rfl]
    have hs : (sort_desc (collected_of now upstream keywords max_papers
        days_back true priority_sources)).Pairwise
        (fun a b : Paper × ℚ => b.2 ≤ a.2) :=
      List.sorted_insertionSort (fun a b : Paper × ℚ => b.2 ≤ a.2) _
    exact hs.sublist (List.take_sublist _ _)
  · intro s
    rw [fetch_scored_eq, if_pos rfl]
    have h1 : ((sort_desc (collected_of now upstream keywords max_papers
        days_back true priority_sources)).take max_papers).Sublist
        (sort_desc (collected_of now upstream keywords max_papers days_back
          true priority_sources)) := List.take_sublist _ _
    have h2 := h1.filter (fun x => decide (x.2 = s))
    have h3 : (sort_desc (collected_of now upstream keywords max_papers
        days_back true priority_sources)).filter (fun x => decide (x.2 = s)) =
        (collected_of now upstream keywords max_papers days_back true
          priority_sources).filter (fun x => decide (x.2 = s)) := by
      unfold sort_desc
      refine filter_insertionSort _ _ ?_ _
      intro a b ha hb
      have ha' : a.2 = s := of_decide_eq_true ha
      have hb' : b.2 = s := of_decide_eq_true hb
      rw [ha', hb']
    rw [h3] at h2
    have h4 : ((collected_of now upstream keywords max_papers days_back true
        priority_sources).filter (fun x => decide (x.2 = s))).Sublist
        (collected_of now upstream keywords max_papers days_back true
          priority_sources) := List.filter_sublist _
    exact ((h2.map Prod.fst).trans (h4.map Prod.fst)).trans
      (collected_map_fst_sublist now upstream keywords max_papers days_back
        true priority_sources)
  · unfold fetch_papers
    rw [fetch_scored_eq, if_neg (by simp)]
    have h1 : ((collected_of now upstream keywords max_papers days_back false
        priority_sources).take max_papers).Sublist
        (collected_of now upstream keywords max_papers days_back false
          priority_sources) := List.take_sublist _ _
    exact (h1.map Prod.fst).trans
      (collected_map_fst_sublist now upstream keywords max_papers days_back
        false priority_sources)

/-- C10: every additive term of `calculate_paper_score` is non-negative, so
the total score is non-negative. -/
theorem calculate_paper_score_nonneg (now : Int) (p : Paper)
    (kws : List String) (srcs : Option (List String)) :
    0 ≤ recency_score now p * 2 ∧ 0 ≤ title_term p kws ∧
    0 ≤ abstract_term p kws ∧ 0 ≤ author_score p ∧
    0 ≤ source_bonus p srcs ∧ 0 ≤ calculate_paper_score now p kws srcs := by
  have hrec : 0 ≤ recency_score now p * 2 := by
    unfold recency_score
    have h1 : (0 : ℤ) ≤ max 0 (7 - days_old now p.published) := le_max_left 0 _
    have h2 : (0 : ℚ) ≤ ((max 0 (7 - days_old now p.published) : ℤ) : ℚ) := by
      exact_mod_cast h1
    positivity
  have htitle : 0 ≤ title_term p kws := by
    unfold title_term
    positivity
  have habs : 0 ≤ abstract_term p kws := by
    unfold abstract_term
    positivity
  have hauth : 0 ≤ author_score p := by
    unfold author_score
    refine le_min ?_ ?_
    · positivity
    · norm_num
  have hbonus : 0 ≤ source_bonus p srcs := by
    unfold source_bonus
    split
    · norm_num
    · norm_num
  refine ⟨hrec, htitle, habs, hauth, hbonus, ?_⟩
  unfold calculate_paper_score
  have := add_nonneg (add_nonneg (add_nonneg (add_nonneg hrec htitle) habs)
    hauth) hbonus
  linarith

/-- C4: the priority-source term of `calculate_paper_score` is exactly 0 or
exactly 2 (the scan of lines 156-159 breaks at the first match), and an
absent or empty priority-source list selects the built-in default list, so
the same bonus is computable in that case too. -/
theorem source_bonus_binary_and_default (p : Paper)
    (srcs : Option (List String)) :
    (source_bonus p srcs = 0 ∨ source_bonus p srcs = 2) ∧
    resolve_sources none = default_sources ∧
    resolve_sources (some []) = default_sources ∧
    source_bonus p (some []) = source_bonus p none ∧
    calculate_paper_score 0 p [] srcs =
      recency_score 0 p * 2 + title_term p [] + abstract_term p []
        + author_score p + source_bonus p srcs := by
  refine ⟨?_, rfl, rfl, rfl, rfl⟩
  unfold source_bonus
  split
  · right
    rfl
  · left
    rfl

/-- C3 counterexample: a paper published 7 days in the future has
`days_old = -7`, so its recency contribution is `max(0, 14)/7*2 = 4 > 2`:
the code does not clamp the age to be non-negative, contradicting the claim
that the recency contribution never exceeds the zero-age value 2. -/
theorem recency_clamp_counterexample :
    recency_score 0 ⟨"T", "A", ["a"], 604800, "u", "e"⟩ * 2 = 4 ∧
    ¬ recency_score 0 ⟨"T", "A", ["a"], 604800, "u", "e"⟩ * 2 ≤ 2 := by
  have h : days_old 0 (604800 : Int) = -7 := by decide
  have he : recency_score 0 ⟨"T", "A", ["a"], 604800, "u", "e"⟩ * 2 = 4 := by
    unfold recency_score
    rw [show (Paper.mk "T" "A" ["a"] 604800 "u" "e").published = (604800 : Int)
      from rfl, h]
    norm_num
  refine ⟨he, ?_⟩
  rw [he]
  norm_num

/-- C3 (amended): the recency term is `max(0, 7 - age)/7*2` with the age not
clamped below zero: for every paper older than 7 days the term is exactly 0,
and every future-dated paper (negative age) contributes strictly more
than 2. -/
theorem recency_term_amended (now : Int) (p : Paper) :
    (7 < days_old now p.published → recency_score now p * 2 = 0) ∧
    (days_old now p.published < 0 → 2 < recency_score now p * 2) := by
  constructor
  · intro h
    unfold recency_score
    rw [max_eq_left (by omega : 7 - days_old now p.published ≤ 0)]
    norm_num
  · intro h
    unfold recency_score
    rw [max_eq_right (by omega : (0 : ℤ) ≤ 7 - days_old now p.published)]
    have h8 : (8 : ℚ) ≤ ((7 - days_old now p.published : ℤ) : ℚ) := by
      exact_mod_cast (by omega : (8 : ℤ) ≤ 7 - days_old now p.published)
    rw [div_mul_eq_mul_div, lt_div_iff₀ (by norm_num : (0 : ℚ) < 7)]
    linarith

/-- Closed witness for `recency_term_amended`: a paper 8 days old scores 0
from recency; a paper dated one day in the future scores more than 2. -/
theorem recency_term_amended_witness :
    7 < days_old 691200 (⟨"T", "A", ["a"], 0, "u", "e"⟩ : Paper).published ∧
    recency_score 691200 ⟨"T", "A", ["a"], 0, "u", "e"⟩ * 2 = 0 ∧
    days_old 0 (⟨"T", "A", ["a"], 86400, "u", "e"⟩ : Paper).published < 0 ∧
    2 < recency_score 0 ⟨"T", "A", ["a"], 86400, "u", "e"⟩ * 2 :=
  ⟨by decide,
   (recency_term_amended 691200 ⟨"T", "A", ["a"], 0, "u", "e"⟩).1 (by decide),
   by decide,
   (recency_term_amended 0 ⟨"T", "A", ["a"], 86400, "u", "e"⟩).2 (by decide)⟩

/-! ### Helper lemmas: string prefixes -/

theorem startsWithChars_append (p : List Char) :
    ∀ a b : List Char, startsWithChars p a = true →
      startsWithChars p (a ++ b) = true := by
  induction p with
  | nil =>
    intro a b _
    rfl
  | cons c cs ih =>
    intro a b h
    cases a with
    | nil => cases h
    | cons d ds =>
      simp only [startsWithChars, List.cons_append, Bool.and_eq_true] at h ⊢
      exact ⟨h.1, ih ds b h.2⟩

theorem strStarts_append (lit m pre : String)
    (h : strStarts lit pre = true) : strStarts (lit ++ m) pre = true := by
  unfold strStarts at h ⊢
  rw [String.data_append]
  exact startsWithChars_append _ _ _ h

theorem data_append_ne_nil (a b : String) (h : a.data ≠ []) :
    (a ++ b).data ≠ [] := by
  rw [String.data_append]
  intro hc
  exact h (List.append_eq_nil.1 hc).1

theorem ne_empty_of_data (a : String) (h : a.data ≠ []) : a ≠ "" := by
  intro hc
  rw [hc] at h
  exact h rfl

theorem summarise_abstract_missing_key (apiKey : Option String)
    (abstract : String) (net : NetResult) (hk : ¬ truthy apiKey = true) :
    summarise_abstract apiKey abstract net =
      "⚠️ OpenRouter API key not configured. Please set OPENROUTER_API_KEY in your environment." := by
  unfold summarise_abstract
  rw [if_pos hk]

theorem summarise_abstract_timeout_eq (apiKey : Option String)
    (abstract : String) (hk : truthy apiKey = true) :
    summarise_abstract apiKey abstract NetResult.timeout =
      "❌ Request timeout - try again later" := by
  unfold summarise_abstract
  rw [if_neg (not_not_intro hk)]

theorem summarise_abstract_requestExc_eq (apiKey : Option String)
    (abstract : String) (hk : truthy apiKey = true) (m : String) :
    summarise_abstract apiKey abstract (NetResult.requestExc m) =
      "❌ Network error: " ++ m := by
  unfold summarise_abstract
  rw [if_neg (not_not_intro hk)]

theorem summarise_abstract_otherExc_eq (apiKey : Option String)
    (abstract : String) (hk : truthy apiKey = true) (m : String) :
    summarise_abstract apiKey abstract (NetResult.otherExc m) =
      "❌ Error generating summary: " ++ m := by
  unfold summarise_abstract
  rw [if_neg (not_not_intro hk)]

theorem summarise_abstract_status_eq (apiKey : Option String)
    (abstract : String) (hk : truthy apiKey = true) {status : Nat}
    (hst : status ≠ 200) (text : String) (body : Except String RespBody) :
    summarise_abstract apiKey abstract
        (NetResult.httpResponse status text body) =
      "❌ API Error " ++ toString status ++ ": " ++ text := by
  unfold summarise_abstract
  rw [if_neg (not_not_intro hk)]
  exact if_pos hst

theorem summarise_abstract_badbody_eq (apiKey : Option String)
    (abstract : String) (hk : truthy apiKey = true) (text m : String) :
    summarise_abstract apiKey abstract
        (NetResult.httpResponse 200 text (Except.error m)) =
      "❌ Error generating summary: " ++ m := by
  unfold summarise_abstract
  rw [if_neg (not_not_intro hk)]
  exact if_neg (by decide)

theorem summarise_abstract_errbody_eq (apiKey : Option String)
    (abstract : String) (hk : truthy apiKey = true) (text : String)
    (msg : Option String) (choices : List String) :
    summarise_abstract apiKey abstract
        (NetResult.httpResponse 200 text (Except.ok ⟨some msg, choices⟩)) =
      "❌ OpenRouter Error: " ++ msg.getD "Unknown error" := by
  unfold summarise_abstract
  rw [if_neg (not_not_intro hk)]
  exact if_neg (by decide)

theorem summarise_abstract_nochoice_eq (apiKey : Option String)
    (abstract : String) (hk : truthy apiKey = true) (text : String) :
    summarise_abstract apiKey abstract
        (NetResult.httpResponse 200 text (Except.ok ⟨none, []⟩)) =
      "❌ No response content received from OpenRouter API" := by
  unfold summarise_abstract
  rw [if_neg (not_not_intro hk)]
  exact if_neg (by decide)

/-- C6: on every non-success environment (missing credential, timeout,
request exception, other exception, non-200 status, undecodable body,
error-bearing body, empty choices) `summarise_abstract` returns a non-empty
string beginning with one of the two failure markers of lines 58-119
(`⚠️` for the missing key, `❌` for every other failure); totality of the
Lean function models that no path raises. -/
theorem summarise_abstract_failure_marked (apiKey : Option String)
    (abstract : String) (net : NetResult)
    (h : ¬ summarySuccess apiKey net) :
    summarise_abstract apiKey abstract net ≠ "" ∧
    (strStarts (summarise_abstract apiKey abstract net) "⚠️" = true ∨
     strStarts (summarise_abstract apiKey abstract net) "❌" = true) := by
  by_cases hk : truthy apiKey = true
  · cases net with
    | timeout =>
      rw [summarise_abstract_timeout_eq apiKey abstract hk]
      exact ⟨by decide, Or.inr (by decide)⟩
    | requestExc m =>
      rw [summarise_abstract_requestExc_eq apiKey abstract hk m]
      exact ⟨ne_empty_of_data _ (data_append_ne_nil _ _ (by decide)),
        Or.inr (strStarts_append _ _ _ (by decide))⟩
    | otherExc m =>
      rw [summarise_abstract_otherExc_eq apiKey abstract hk m]
      exact ⟨ne_empty_of_data _ (data_append_ne_nil _ _ (by decide)),
        Or.inr (strStarts_append _ _ _ (by decide))⟩
    | httpResponse status text body =>
      by_cases hst : status = 200
      · subst hst
        cases body with
        | error m =>
          rw [summarise_abstract_badbody_eq apiKey abstract hk text m]
          exact ⟨ne_empty_of_data _ (data_append_ne_nil _ _ (by decide)),
            Or.inr (strStarts_append _ _ _ (by decide))⟩
        | ok b =>
          rcases b with ⟨err, choices⟩
          cases err with
          | some msg =>
            rw [summarise_abstract_errbody_eq apiKey abstract hk text msg
              choices]
            exact ⟨ne_empty_of_data _ (data_append_ne_nil _ _ (by decide)),
              Or.inr (strStarts_append _ _ _ (by decide))⟩
          | none =>
            cases choices with
            | nil =>
              rw [summarise_abstract_nochoice_eq apiKey abstract hk text]
              exact ⟨by decide, Or.inr (by decide)⟩
            | cons c cs =>
              exact absurd ⟨hk, rfl, rfl, by simp⟩ h
      · rw [summarise_abstract_status_eq apiKey abstract hk hst text body]
        refine ⟨ne_empty_of_data _ ?_, Or.inr ?_⟩
        · exact data_append_ne_nil _ _ (data_append_ne_nil _ _
            (data_append_ne_nil _ _ (by decide)))
        · exact strStarts_append _ _ _ (strStarts_append _ _ _
            (strStarts_append _ _ _ (by decide)))
  · rw [summarise_abstract_missing_key apiKey abstract net hk]
    exact ⟨by decide, Or.inl (by decide)⟩

/-- Closed witness for `summarise_abstract_failure_marked`: a missing API
key is a non-success environment and yields a marked, non-empty string. -/
theorem summarise_abstract_failure_marked_witness :
    ¬ summarySuccess none NetResult.timeout ∧
    (summarise_abstract none "a" NetResult.timeout ≠ "" ∧
     (strStarts (summarise_abstract none "a" NetResult.timeout) "⚠️" = true ∨
      strStarts (summarise_abstract none "a" NetResult.timeout) "❌" = true)) :=
  ⟨fun hc => (by decide : ¬ truthy none = true) hc.1,
   summarise_abstract_failure_marked none "a" NetResult.timeout
     (fun hc => (by decide : ¬ truthy none = true) hc.1)⟩

/-- C7 counterexample: `generate_daily_digest` replaces an error-marked
summary with the string `Summary generation failed - see original abstract`
(hyphen-minus, `daily_digest.py` line 79), which differs byte-wise from the
claimed fallback `Summary generation failed — see original abstract`
(em-dash). -/
theorem fallback_string_counterexample :
    normalize_summary "❌ API Error 500: x" =
      "Summary generation failed - see original abstract" ∧
    normalize_summary "❌ API Error 500: x" ≠
      "Summary generation failed — see original abstract" :=
  ⟨by decide, by decide⟩

/-- C7 (amended): the orchestrator loop of `daily_digest.py` lines 75-81
replaces every `❌`-prefixed summariser result with the fixed fallback
string (spelled with a hyphen-minus), so no summary reaching rendering is
`❌`-prefixed. -/
theorem generate_daily_digest_normalizes (apiKey : Option String)
    (abstract : String) (net : NetResult) :
    strStarts (normalize_summary (summarise_abstract apiKey abstract net))
      "❌" = false ∧
    (strStarts (summarise_abstract apiKey abstract net) "❌" = true →
      normalize_summary (summarise_abstract apiKey abstract net) =
        fallback_summary) := by
  constructor
  · unfold normalize_summary
    by_cases hx : strStarts (summarise_abstract apiKey abstract net) "❌" = true
    · rw [if_pos hx]
      decide
    · rw [if_neg hx]
      cases hb : strStarts (summarise_abstract apiKey abstract net) "❌" with
      | false => rfl
      | true => exact absurd hb hx
  · intro hx
    unfold normalize_summary
    rw [if_pos hx]

/-- Closed witness for `generate_daily_digest_normalizes`: a timeout result
is `❌`-prefixed and gets replaced by the fallback string. -/
theorem generate_daily_digest_normalizes_witness :
    strStarts (summarise_abstract (some "k") "a" NetResult.timeout) "❌" = true ∧
    normalize_summary (summarise_abstract (some "k") "a" NetResult.timeout) =
      fallback_summary :=
  ⟨by decide,
   (generate_daily_digest_normalizes (some "k") "a" NetResult.timeout).2
     (by decide)⟩

/-- C8: routing is purely by credential presence: Gmail is attempted iff
both Gmail credentials are truthy; SendGrid is attempted iff the Gmail pair
is not fully present and the SendGrid key is truthy; a Gmail delivery
failure still attempts only Gmail (no fallback); with neither transport
configured nothing is attempted and the result is `false`. -/
theorem send_email_routing (env : EmailEnv) (gmailOk sendgridOk : Bool) :
    ((Transport.gmail ∈ (send_email env gmailOk sendgridOk).1) ↔
      (truthy env.gmail_user = true ∧ truthy env.gmail_app_password = true)) ∧
    ((Transport.sendgrid ∈ (send_email env gmailOk sendgridOk).1) ↔
      (¬(truthy env.gmail_user = true ∧ truthy env.gmail_app_password = true) ∧
        truthy env.sendgrid_api_key = true)) ∧
    ((truthy env.gmail_user = true ∧ truthy env.gmail_app_password = true) →
      send_email env false sendgridOk = ([Transport.gmail], false)) ∧
    ((¬(truthy env.gmail_user = true ∧ truthy env.gmail_app_password = true)) →
      truthy env.sendgrid_api_key = false →
      send_email env gmailOk sendgridOk = ([], false)) := by
  cases hu : truthy env.gmail_user <;>
  cases hp : truthy env.gmail_app_password <;>
  cases hs : truthy env.sendgrid_api_key <;>
    simp [send_email, send_email_gmail, send_email_sendgrid, hu, hp, hs]

/-- Closed witness for `send_email_routing`: with no credentials at all,
no transport is attempted and the result is `false`. -/
theorem send_email_routing_witness :
    (¬(truthy (EmailEnv.mk none none none).gmail_user = true ∧
       truthy (EmailEnv.mk none none none).gmail_app_password = true)) ∧
    truthy (EmailEnv.mk none none none).sendgrid_api_key = false ∧
    send_email (EmailEnv.mk none none none) true true = ([], false) :=
  ⟨by decide, by decide,
   (send_email_routing (EmailEnv.mk none none none) true true).2.2.2
     (by decide) (by decide)⟩

/-! ### Helper lemmas: line splitting -/

theorem splitOnChar_ne_nil (sep : Char) : ∀ l : List Char,
    splitOnChar sep l ≠ [] := by
  intro l
  induction l with
  | nil => simp [splitOnChar]
  | cons c rest ih =>
    simp only [splitOnChar]
    by_cases hc : c = sep
    · simp [hc]
    · rw [if_neg hc]
      cases hsp : splitOnChar sep rest with
      | nil => simp
      | cons l0 ls => simp

theorem splitOnChar_no_sep (sep : Char) : ∀ l : List Char,
    sep ∉ l → splitOnChar sep l = [l] := by
  intro l
  induction l with
  | nil =>
    intro _
    rfl
  | cons c rest ih =>
    intro h
    have hc : c ≠ sep := fun hc => h (by rw [← hc]; exact List.mem_cons_self c rest)
    simp only [splitOnChar]
    rw [if_neg hc, ih (fun hm => h (List.mem_cons_of_mem c hm))]

theorem splitOnChar_append (sep : Char) : ∀ (a r : List Char),
    splitOnChar sep (a ++ sep :: r) =
      splitOnChar sep a ++ splitOnChar sep r := by
  intro a
  induction a with
  | nil =>
    intro r
    simp only [List.nil_append, splitOnChar, if_pos rfl]
    rfl
  | cons c a2 ih =>
    intro r
    simp only [List.cons_append, splitOnChar, List.append_eq]
    by_cases hc : c = sep
    · rw [if_pos hc, if_pos hc, ih]
      rfl
    · rw [if_neg hc, if_neg hc, ih]
      cases hsp : splitOnChar sep a2 with
      | nil => exact absurd hsp (splitOnChar_ne_nil sep a2)
      | cons l0 ls => simp


theorem splitOnChar_linesJoin (sep : Char) :
    ∀ (lines : List (List Char)) (tail : List Char),
      (∀ l ∈ lines, sep ∉ l) →
      splitOnChar sep (linesJoin sep lines tail) =
        lines ++ splitOnChar sep tail := by
  intro lines
  induction lines with
  | nil =>
    intro tail _
    rfl
  | cons l ls ih =>
    intro tail h
    simp only [linesJoin]
    rw [splitOnChar_append sep l (linesJoin sep ls tail),
      splitOnChar_no_sep sep l (h l (List.mem_cons_self l ls)),
      ih tail (fun x hx => h x (List.mem_cons_of_mem l hx))]
    rfl

/-! ### Helper lemmas: the line parser -/

theorem parseLines_skip (l : List Char) (rest : List (List Char))
    (h : startsWithChars "Title: ".data l = false) :
    parseLines (l :: rest) = parseLines rest := by
  match rest with
  | [] => simp only [parseLines, h, Bool.false_eq_true, if_false]
  | [a] => simp only [parseLines, h, Bool.false_eq_true, if_false]
  | [a, d] => simp only [parseLines, h, Bool.false_eq_true, if_false]
  | a :: d :: u :: rest2 =>
    simp only [parseLines, h, Bool.false_eq_true, if_false]

theorem parseLines_skip_all : ∀ (ls rest : List (List Char)),
    (∀ l ∈ ls, startsWithChars "Title: ".data l = false) →
    parseLines (ls ++ rest) = parseLines rest := by
  intro ls
  induction ls with
  | nil =>
    intro rest _
    rfl
  | cons l ls ih =>
    intro rest h
    rw [List.cons_append, parseLines_skip l _ (h l (List.mem_cons_self l ls)),
      ih rest (fun x hx => h x (List.mem_cons_of_mem l hx))]

theorem parseLines_entry (t a d u : List Char) (rest : List (List Char))
    (h : startsWithChars "Title: ".data t = true) :
    parseLines (t :: a :: d :: u :: rest) =
      parsedOfLines t a d u :: parseLines rest := by
  simp only [parseLines, h, if_true]

theorem startsWithChars_ne_head (p c : Char) (ps cs : List Char) (h : p ≠ c) :
    startsWithChars (p :: ps) (c :: cs) = false := by
  simp [startsWithChars, beq_iff_eq, h]

theorem startsWithChars_self_append (p : List Char) : ∀ x : List Char,
    startsWithChars p (p ++ x) = true := by
  induction p with
  | nil =>
    intro x
    rfl
  | cons c cs ih =>
    intro x
    simp [startsWithChars, ih]

theorem not_title_of_append (lit : String) (x : List Char) (c : Char)
    (cs : List Char) (hl : lit.data = c :: cs) (hc : c ≠ 'T') :
    startsWithChars "Title: ".data (lit.data ++ x) = false := by
  rw [hl, List.cons_append,
    show "Title: ".data = 'T' :: "itle: ".data from rfl]
  exact startsWithChars_ne_head _ _ _ _ (fun hh => hc hh.symm)

/-! ### Helper lemmas: the author-name separator -/

theorem splitCommaSp_no_sep : ∀ l : List Char,
    containsChars [',', ' '] l = false → splitCommaSp l = [l] := by
  intro l
  induction l with
  | nil =>
    intro _
    rfl
  | cons c rest ih =>
    intro h
    simp only [containsChars, Bool.or_eq_false_iff] at h
    obtain ⟨h1, h2⟩ := h
    cases rest with
    | nil => rfl
    | cons c2 rest2 =>
      have hnot : ¬(c = ',' ∧ c2 = ' ') := by
        rintro ⟨rfl, rfl⟩
        simp [startsWithChars] at h1
      simp only [splitCommaSp]
      rw [if_neg hnot, ih h2]

theorem splitCommaSp_append : ∀ (a r : List Char),
    containsChars [',', ' '] a = false →
    splitCommaSp (a ++ ',' :: ' ' :: r) = a :: splitCommaSp r := by
  intro a
  induction a with
  | nil =>
    intro r _
    simp [splitCommaSp]
  | cons c a2 ih =>
    intro r h
    simp only [containsChars, Bool.or_eq_false_iff] at h
    obtain ⟨h1, h2⟩ := h
    cases a2 with
    | nil =>
      simp only [List.nil_append, List.cons_append, splitCommaSp]
      simp
    | cons c2 a3 =>
      have hnot : ¬(c = ',' ∧ c2 = ' ') := by
        rintro ⟨rfl, rfl⟩
        simp [startsWithChars] at h1
      have ihr : splitCommaSp (c2 :: (a3 ++ ',' :: ' ' :: r)) =
          (c2 :: a3) :: splitCommaSp r := by
        have h3 := ih r h2
        simpa [List.cons_append] using h3
      simp only [List.cons_append, splitCommaSp, List.append_eq]
      rw [if_neg hnot, ihr]

theorem splitCommaSp_join : ∀ names : List String,
    names ≠ [] →
    (∀ n ∈ names, containsChars [',', ' '] n.data = false) →
    splitCommaSp ((joinSep ", " names).data) = names.map String.data := by
  intro names
  induction names with
  | nil =>
    intro hne _
    exact absurd rfl hne
  | cons n rest ih =>
    intro _ h
    cases rest with
    | nil =>
      rw [show joinSep ", " [n] = n from rfl,
        splitCommaSp_no_sep n.data (h n (List.mem_cons_self n _))]
      rfl
    | cons m rest2 =>
      have hstep : (joinSep ", " (n :: m :: rest2)).data =
          n.data ++ ',' :: ' ' :: (joinSep ", " (m :: rest2)).data := by
        rw [show joinSep ", " (n :: m :: rest2) =
            n ++ ", " ++ joinSep ", " (m :: rest2) from rfl,
          String.data_append, String.data_append,
          show (", " : String).data = [',', ' '] from rfl,
          List.append_assoc]
        rfl
      rw [hstep,
        splitCommaSp_append n.data _ (h n (List.mem_cons_self n _)),
        ih (List.cons_ne_nil m rest2)
          (fun x hx => h x (List.mem_cons_of_mem n hx))]
      rfl

theorem newline_not_mem_joinSep : ∀ names : List String,
    (∀ n ∈ names, '\n' ∉ n.data) →
    '\n' ∉ (joinSep ", " names).data := by
  intro names
  induction names with
  | nil =>
    intro _
    decide
  | cons n rest ih =>
    intro h
    cases rest with
    | nil => exact h n (List.mem_cons_self n _)
    | cons m rest2 =>
      intro hmem
      rw [show (joinSep ", " (n :: m :: rest2)).data =
          (n.data ++ (", " : String).data) ++
            (joinSep ", " (m :: rest2)).data from rfl] at hmem
      rcases List.mem_append.1 hmem with hx | hx
      · rcases List.mem_append.1 hx with hy | hy
        · exact h n (List.mem_cons_self n _) hy
        · exact (by decide : '\n' ∉ (", " : String).data) hy
      · exact ih (fun x hx2 => h x (List.mem_cons_of_mem n hx2)) hx

theorem map_mk_data (l : List String) :
    ((l.map String.data).map (fun cs => (⟨cs⟩ : String))) = l := by
  rw [List.map_map]
  exact List.map_id' l

theorem take_ne_nil {α : Type} (l : List α) (h : l ≠ []) : l.take 3 ≠ [] := by
  cases l with
  | nil => exact absurd rfl h
  | cons a rest => simp [List.take]

/-! ### Helper lemmas: the formatted date contains no newline -/

theorem digitChar_ne_newline (n : Nat) : digitChar n ≠ '\n' := by
  unfold digitChar
  split <;> decide

theorem newline_not_mem_pad2 (n : Nat) : '\n' ∉ pad2 n := by
  intro h
  simp only [pad2, List.mem_cons, List.not_mem_nil, or_false] at h
  rcases h with h | h
  · exact digitChar_ne_newline _ h.symm
  · exact digitChar_ne_newline _ h.symm

theorem newline_not_mem_pad4 (n : Nat) : '\n' ∉ pad4 n := by
  intro h
  simp only [pad4, List.mem_cons, List.not_mem_nil, or_false] at h
  rcases h with h | h | h | h <;> exact digitChar_ne_newline _ h.symm

theorem newline_not_mem_formatDate (t : Int) : '\n' ∉ (formatDate t).data := by
  intro h
  rw [show (formatDate t).data =
      pad4 (civil_from_days (t.fdiv 86400)).1.toNat ++
        '-' :: (pad2 (civil_from_days (t.fdiv 86400)).2.1 ++
          '-' :: pad2 (civil_from_days (t.fdiv 86400)).2.2) from rfl] at h
  rcases List.mem_append.1 h with hx | hx
  · exact newline_not_mem_pad4 _ hx
  · rcases List.mem_cons.1 hx with hy | hy
    · exact (by decide : ('\n' : Char) ≠ '-') hy
    · rcases List.mem_append.1 hy with hz | hz
      · exact newline_not_mem_pad2 _ hz
      · rcases List.mem_cons.1 hz with hw | hw
        · exact (by decide : ('\n' : Char) ≠ '-') hw
        · exact newline_not_mem_pad2 _ hw

theorem newline_notin_tagline (lit : String) (x : List Char)
    (hlit : '\n' ∉ lit.data) (hx : '\n' ∉ x) : '\n' ∉ lit.data ++ x := by
  intro hm
  rcases List.mem_append.1 hm with h | h
  · exact hlit h
  · exact hx h

theorem entryText_lines (e : Paper × String) (rest : List Char)
    (ht : '\n' ∉ e.1.title.data)
    (ha : '\n' ∉ (joinSep ", " (e.1.authors.take 3)).data)
    (hu : '\n' ∉ e.1.pdf_url.data)
    (hi : '\n' ∉ e.1.entry_id.data) :
    splitOnChar '\n' ((entryText e).data ++ rest) =
      ("Title: ".data ++ e.1.title.data) ::
      ("Authors: ".data ++ (joinSep ", " (e.1.authors.take 3)).data) ::
      ("Published: ".data ++ (formatDate e.1.published).data) ::
      ("PDF: ".data ++ e.1.pdf_url.data) ::
      ("arXiv: ".data ++ e.1.entry_id.data) ::
      [] ::
      "Summary:".data ::
      (splitOnChar '\n' e.2.data ++
        ([] :: (sepRule '-').data :: [] :: splitOnChar '\n' rest)) := by
  have hjoin : (entryText e).data ++ rest =
      linesJoin '\n'
        [("Title: ".data ++ e.1.title.data),
         ("Authors: ".data ++ (joinSep ", " (e.1.authors.take 3)).data),
         ("Published: ".data ++ (formatDate e.1.published).data),
         ("PDF: ".data ++ e.1.pdf_url.data),
         ("arXiv: ".data ++ e.1.entry_id.data),
         [],
         "Summary:".data]
        (e.2.data ++ '\n' :: linesJoin '\n'
          [[], (sepRule '-').data, []] rest) := by
    simp only [entryText, linesJoin, String.data_append, List.append_assoc,
      List.cons_append, List.nil_append,
      show ("\n" : String).data = ['\n'] from rfl,
      show ("\n\n" : String).data = ['\n', '\n'] from rfl,
      show ("Summary:\n" : String).data = "Summary:".data ++ ['\n'] from rfl]
  rw [hjoin, splitOnChar_linesJoin]
  · rw [splitOnChar_append '\n' e.2.data, splitOnChar_linesJoin]
    · simp only [List.cons_append, List.nil_append]
    · intro l hl
      simp only [List.mem_cons, List.not_mem_nil, or_false] at hl
      rcases hl with rfl | rfl | rfl
      · exact List.not_mem_nil '\n'
      · exact (by decide : '\n' ∉ (sepRule '-').data)
      · exact List.not_mem_nil '\n'
  · intro l hl
    simp only [List.mem_cons, List.not_mem_nil, or_false] at hl
    rcases hl with rfl | rfl | rfl | rfl | rfl | rfl | rfl
    · exact newline_notin_tagline "Title: " _ (by decide) ht
    · exact newline_notin_tagline "Authors: " _ (by decide) ha
    · exact newline_notin_tagline "Published: " _ (by decide)
        (newline_not_mem_formatDate e.1.published)
    · exact newline_notin_tagline "PDF: " _ (by decide) hu
    · exact newline_notin_tagline "arXiv: " _ (by decide) hi
    · exact List.not_mem_nil '\n'
    · exact (by decide : '\n' ∉ ("Summary:" : String).data)

theorem text_content_lines (today kw : String)
    (digests : List (Paper × String))
    (h1 : '\n' ∉ today.data) (h2 : '\n' ∉ kw.data) :
    splitOnChar '\n' ((text_content today kw digests).data) =
      ("ArXiv Digest - ".data ++ today.data) ::
      ("Keywords: ".data ++ kw.data) ::
      (sepRule '=').data ::
      [] ::
      splitOnChar '\n' ((entriesText digests).data) := by
  have hjoin : (text_content today kw digests).data =
      linesJoin '\n'
        [("ArXiv Digest - ".data ++ today.data),
         ("Keywords: ".data ++ kw.data),
         (sepRule '=').data,
         []]
        ((entriesText digests).data) := by
    simp only [text_content, linesJoin, String.data_append, List.append_assoc,
      List.cons_append, List.nil_append,
      show ("\n" : String).data = ['\n'] from rfl,
      show ("\n\n" : String).data = ['\n', '\n'] from rfl]
  rw [hjoin, splitOnChar_linesJoin]
  · simp only [List.cons_append, List.nil_append]
  · intro l hl
    simp only [List.mem_cons, List.not_mem_nil, or_false] at hl
    rcases hl with rfl | rfl | rfl | rfl
    · exact newline_notin_tagline "ArXiv Digest - " _ (by decide) h1
    · exact newline_notin_tagline "Keywords: " _ (by decide) h2
    · exact (by decide : '\n' ∉ (sepRule '=').data)
    · exact List.not_mem_nil '\n'

theorem parsedOfLines_eq (e : Paper × String)
    (hne : e.1.authors ≠ [])
    (hnames : ∀ n ∈ e.1.authors.take 3,
      containsChars [',', ' '] n.data = false) :
    parsedOfLines ("Title: ".data ++ e.1.title.data)
      ("Authors: ".data ++ (joinSep ", " (e.1.authors.take 3)).data)
      ("Published: ".data ++ (formatDate e.1.published).data)
      ("PDF: ".data ++ e.1.pdf_url.data) = renderedFields e := by
  unfold parsedOfLines renderedFields
  rw [show ("Title: ".data ++ e.1.title.data).drop 7 = e.1.title.data from
      List.drop_left' (by decide),
    show ("Authors: ".data ++
        (joinSep ", " (e.1.authors.take 3)).data).drop 9 =
      (joinSep ", " (e.1.authors.take 3)).data from List.drop_left' (by decide),
    show ("Published: ".data ++ (formatDate e.1.published).data).drop 11 =
      (formatDate e.1.published).data from List.drop_left' (by decide),
    show ("PDF: ".data ++ e.1.pdf_url.data).drop 5 = e.1.pdf_url.data from
      List.drop_left' (by decide),
    splitCommaSp_join (e.1.authors.take 3) (take_ne_nil _ hne) hnames,
    map_mk_data]


theorem parse_entriesText : ∀ digests : List (Paper × String),
    (∀ e ∈ digests, goodEntry e) →
    parseLines (splitOnChar '\n' ((entriesText digests).data)) =
      digests.map renderedFields := by
  intro digests
  induction digests with
  | nil =>
    intro _
    rfl
  | cons e rest ih =>
    intro h
    obtain ⟨ht, hu, hi, hne, hnames, hsum⟩ := h e (List.mem_cons_self e rest)
    have ha : '\n' ∉ (joinSep ", " (e.1.authors.take 3)).data :=
      newline_not_mem_joinSep _ (fun n hn => (hnames n hn).1)
    rw [show (entriesText (e :: rest)).data =
        (entryText e).data ++ (entriesText rest).data from rfl]
    rw [entryText_lines e _ ht ha hu hi]
    rw [parseLines_entry _ _ _ _ _
      (startsWithChars_self_append "Title: ".data _)]
    rw [parsedOfLines_eq e hne (fun n hn => (hnames n hn).2)]
    rw [parseLines_skip _ _
      (not_title_of_append "arXiv: " e.1.entry_id.data 'a' _ rfl (by decide))]
    rw [parseLines_skip _ _
      (by decide : startsWithChars "Title: ".data [] = false)]
    rw [parseLines_skip _ _
      (by decide : startsWithChars "Title: ".data ("Summary:".data) = false)]
    rw [parseLines_skip_all _ _ hsum]
    rw [parseLines_skip _ _
      (by decide : startsWithChars "Title: ".data [] = false)]
    rw [parseLines_skip _ _
      (by decide : startsWithChars "Title: ".data ((sepRule '-').data) = false)]
    rw [parseLines_skip _ _
      (by decide : startsWithChars "Title: ".data [] = false)]
    rw [ih (fun x hx => h x (List.mem_cons_of_mem e hx))]
    rfl


set_option maxRecDepth 8192 in
/-- C9 counterexample: two digests whose papers differ only in a fourth
author render to byte-identical plaintext (line 757 keeps only the first
three author names), so re-parsing cannot recover the author list
byte-identically; the concrete parse of the 4-author digest returns only
the first three names. -/
theorem text_content_authors_counterexample :
    text_content "D" "K"
      [(⟨"T", "A", ["a1", "a2", "a3"], 86400, "u", "e"⟩, "s")] =
    text_content "D" "K"
      [(⟨"T", "A", ["a1", "a2", "a3", "a4"], 86400, "u", "e"⟩, "s")] ∧
    (⟨"T", "A", ["a1", "a2", "a3"], 86400, "u", "e"⟩ : Paper).authors ≠
      (⟨"T", "A", ["a1", "a2", "a3", "a4"], 86400, "u", "e"⟩ : Paper).authors ∧
    parseDigest (text_content "D" "K"
      [(⟨"T", "A", ["a1", "a2", "a3", "a4"], 86400, "u", "e"⟩, "s")]) =
      [⟨"T", ["a1", "a2", "a3"], "1970-01-02", "u"⟩] :=
  ⟨by decide, by decide, by decide⟩

/-- C9 (amended): for every digest whose entries are well formed
(`goodEntry`: newline-free single-line fields, at least one author, first
three author names free of the join separator, no summary line starting
with the title tag) and whose header strings are newline-free, rendering the
plaintext digest and re-parsing it recovers, byte-identically, the title,
the first three author names, the formatted publication date, and the PDF
link of every entry. -/
theorem text_content_roundtrip (today kw : String)
    (digests : List (Paper × String))
    (h1 : '\n' ∉ today.data) (h2 : '\n' ∉ kw.data)
    (h3 : ∀ e ∈ digests, goodEntry e) :
    parseDigest (text_content today kw digests) =
      digests.map renderedFields := by
  unfold parseDigest
  rw [text_content_lines today kw digests h1 h2]
  rw [parseLines_skip _ _
    (not_title_of_append "ArXiv Digest - " today.data 'A' _ rfl (by decide))]
  rw [parseLines_skip _ _
    (not_title_of_append "Keywords: " kw.data 'K' _ rfl (by decide))]
  rw [parseLines_skip _ _
    (by decide : startsWithChars "Title: ".data ((sepRule '=').data) = false)]
  rw [parseLines_skip _ _
    (by decide : startsWithChars "Title: ".data [] = false)]
  exact parse_entriesText digests h3

set_option maxRecDepth 8192 in
/-- Closed witness for `text_content_roundtrip` at a concrete digest. -/
theorem text_content_roundtrip_witness :
    ('\n' ∉ ("D" : String).data) ∧ ('\n' ∉ ("K" : String).data) ∧
    (∀ e ∈ [((⟨"T", "A", ["a1", "a2"], 86400, "u", "e"⟩ : Paper), "sum")],
      goodEntry e) ∧
    parseDigest (text_content "D" "K"
      [(⟨"T", "A", ["a1", "a2"], 86400, "u", "e"⟩, "sum")]) =
      [((⟨"T", "A", ["a1", "a2"], 86400, "u", "e"⟩ : Paper), "sum")].map
        renderedFields :=
  ⟨by decide, by decide, by decide,
   text_content_roundtrip "D" "K" _ (by decide) (by decide) (by decide)⟩
